import Mathlib

/-!
# Verification of the ticketflow telemetry queue

A shallow embedding of `src-tauri/src/telemetry.rs`: the durable offline
event queue (SQLite table `ph_event_queue`), the flush coordinator
(`flush_queue`), the batch intake command (`ph_send_batch`) and startup
recovery (`startup_flush`).

Modelling choices:
* The SQLite table is a `Store`: a list of rows in rowid (insertion) order
  plus the next AUTOINCREMENT id.  Machine integers (`i64`) hold row ids,
  epoch milliseconds and counters; all values occurring are small and
  non-negative, so they are modelled as `Nat`.
* `serde_json::to_string` and `serde_json::from_str` are external library
  calls; they are passed in as explicit parameters
  `ser : PhEvent → Option String` and `deser : String → Option PhEvent`
  (`none` models the `Err`/failure case the Rust code matches on).
* The network is external as well: the outcome of an HTTP POST is a
  `RelayResponse` parameter (`ok true` = 2xx, `ok false` = other status,
  `err` = transport failure).  Functions that may POST also return the
  batch they posted (`Option (List PhEvent)`), so "no network call was
  made" is expressible as `posted = none`.
* `ORDER BY created_at ASC` is modelled by sorting on the key
  `(created_at, id)`: rows with equal `created_at` are visited by the
  `idx_queue_created` index scan in rowid order.
-/

namespace Ticketflow

/-- `MAX_QUEUE_SIZE` from telemetry.rs. -/
def MAX_QUEUE_SIZE : Nat := 500

/-- `MAX_RETRY_COUNT` from telemetry.rs. -/
def MAX_RETRY_COUNT : Nat := 5

/-- `FLUSH_BATCH_SIZE` from telemetry.rs. -/
def FLUSH_BATCH_SIZE : Nat := 50

/-- One PostHog event (`struct PhEvent`).  `properties` is an arbitrary
JSON value, opaque to the queue; it is carried as a string. -/
structure PhEvent where
  event : String
  properties : String
  timestamp : Option String
deriving DecidableEq

/-- One row of the `ph_event_queue` table. -/
structure Row where
  id : Nat
  event_json : String
  created_at : Nat
  retry_count : Nat
deriving DecidableEq

/-- The `ph_event_queue` table: rows in rowid order plus the next
AUTOINCREMENT id (SQLite starts at 1). -/
structure Store where
  rows : List Row
  next_id : Nat
deriving DecidableEq

/-- The table right after `init_telemetry_db` created the schema. -/
def emptyStore : Store := ⟨[], 1⟩

/-- The scan order of the `created_at ASC` index: created_at, ties in
rowid order.  Total and transitive. -/
def keyLe (a b : Row) : Prop :=
  a.created_at < b.created_at ∨ (a.created_at = b.created_at ∧ a.id ≤ b.id)

instance : DecidableRel keyLe := fun a b =>
  inferInstanceAs (Decidable (_ ∨ _))

instance : IsTotal Row keyLe where
  total := by intro a b; unfold keyLe; omega

instance : IsTrans Row keyLe where
  trans a b c hab hbc := by unfold keyLe at *; omega

/-- `INSERT INTO ph_event_queue (event_json, created_at) VALUES (?, ?)`:
appends a fresh row with `retry_count` defaulted to 0. -/
def insertRow (st : Store) (json : String) (now_ms : Nat) : Store :=
  ⟨st.rows ++ [⟨st.next_id, json, now_ms, 0⟩], st.next_id + 1⟩

/-- `DELETE FROM ph_event_queue WHERE id IN (SELECT id FROM ph_event_queue
ORDER BY created_at ASC LIMIT k)`: removes the `k` oldest rows. -/
def pruneOldest (rows : List Row) (k : Nat) : List Row :=
  let doomed := ((rows.insertionSort keyLe).take k).map (·.id)
  rows.filter (fun r => !(decide (r.id ∈ doomed)))

/-- `queue_events`: serializes each event independently (Err ⇒ logged and
skipped), inserts the successes with a single timestamp `now_ms` computed
once before the loop, then prunes the oldest rows beyond `MAX_QUEUE_SIZE`.
Returns the new store and the count of inserted rows (the Rust return
value). -/
def queue_events (ser : PhEvent → Option String) (st : Store)
    (events : List PhEvent) (now_ms : Nat) : Store × Nat :=
  let res := events.foldl
    (fun acc e =>
      match ser e with
      | some json => (insertRow acc.1 json now_ms, acc.2 + 1)
      | none => acc)
    (st, 0)
  let pruned := pruneOldest res.1.rows (res.1.rows.length - MAX_QUEUE_SIZE)
  (⟨pruned, res.1.next_id⟩, res.2)

/-- `SELECT id, event_json FROM ph_event_queue WHERE retry_count < ?
ORDER BY created_at ASC LIMIT ?`.  The model returns the full rows; the
Rust code projects `(id, event_json)` from exactly these rows. -/
def select_eligible (st : Store) (limit : Nat) : List Row :=
  (((st.rows.filter
    (fun r => decide (r.retry_count < MAX_RETRY_COUNT))).insertionSort
    keyLe).take limit)

/-- Outcome of an HTTP POST: `ok true` = 2xx status, `ok false` = non-2xx
status, `err` = transport failure (DNS, refused, timeout). -/
inductive RelayResponse where
  | ok (success : Bool)
  | err
deriving DecidableEq

/-- Result of one flush pass: the new store, and the batch of events
POSTed to `{api_host}/batch` (`none` when no network call was made). -/
structure FlushResult where
  store : Store
  posted : Option (List PhEvent)
deriving DecidableEq

/-- `flush_queue`: select up to `FLUSH_BATCH_SIZE` rows with retry budget;
return untouched if the selection is empty or the api_key is empty;
deserialize each row, skipping malformed ones; return untouched if none
deserialize; otherwise POST and either delete all selected ids (2xx) or
increment `retry_count` for all selected ids and purge those now at the
ceiling (any other outcome). -/
def flush_queue (deser : String → Option PhEvent) (st : Store)
    (api_key : String) (resp : RelayResponse) : FlushResult :=
  let rows := select_eligible st FLUSH_BATCH_SIZE
  if rows.isEmpty then ⟨st, none⟩
  else if api_key = "" then ⟨st, none⟩
  else
    let ids := rows.map (·.id)
    let events := rows.filterMap (fun r => deser r.event_json)
    if events.isEmpty then ⟨st, none⟩
    else
      match resp with
      | .ok true =>
        ⟨⟨st.rows.filter (fun r => !(decide (r.id ∈ ids))), st.next_id⟩,
          some events⟩
      | _ =>
        let incremented := st.rows.map (fun r =>
          if decide (r.id ∈ ids) then { r with retry_count := r.retry_count + 1 }
          else r)
        let kept := incremented.filter (fun r =>
          !(decide (MAX_RETRY_COUNT ≤ r.retry_count) && decide (r.id ∈ ids)))
        ⟨⟨kept, st.next_id⟩, some events⟩

/-- `startup_flush`: one best-effort flush pass with an empty api_key. -/
def startup_flush (deser : String → Option PhEvent) (st : Store)
    (resp : RelayResponse) : FlushResult :=
  flush_queue deser st "" resp

/-- Return value of `ph_send_batch`. -/
structure BatchResult where
  sent : Nat
  queued : Nat
deriving DecidableEq

/-- `ph_send_batch`: POST the fresh batch; on a 2xx response run one flush
pass (whose own POST outcome is `flushResp`) and report
`{sent = events.length, queued = 0}`; on a non-2xx response or a transport
error queue the batch and report `{sent = 0, queued = count inserted}`.
The Rust command returns `Ok` on every one of these paths. -/
def ph_send_batch (ser : PhEvent → Option String)
    (deser : String → Option PhEvent) (st : Store) (events : List PhEvent)
    (api_key : String) (resp flushResp : RelayResponse) (now_ms : Nat) :
    Store × BatchResult :=
  match resp with
  | .ok true =>
    ((flush_queue deser st api_key flushResp).store, ⟨events.length, 0⟩)
  | _ =>
    let q := queue_events ser st events now_ms
    (q.1, ⟨0, q.2⟩)

/-! ## Helper definitions for statements and scenarios -/

/-- The rows produced by a run of successful inserts: one row per
serialized event, consecutive ids from `i`, all sharing `now_ms`. -/
def mkRows : List String → Nat → Nat → List Row
  | [], _, _ => []
  | j :: js, i, now_ms => ⟨i, j, now_ms, 0⟩ :: mkRows js (i + 1) now_ms

/-- Well-formedness of the table, maintained by SQLite: row ids are
distinct and below the next AUTOINCREMENT id. -/
def WF (st : Store) : Prop :=
  (st.rows.map (·.id)).Nodup ∧ ∀ r ∈ st.rows, r.id < st.next_id

/-- The retry-ceiling invariant: every live row has retry budget left. -/
def RetryInv (st : Store) : Prop :=
  ∀ r ∈ st.rows, r.retry_count < MAX_RETRY_COUNT

instance : DecidablePred RetryInv := fun st =>
  inferInstanceAs (Decidable (∀ r ∈ st.rows, r.retry_count < MAX_RETRY_COUNT))

instance : DecidablePred WF := fun st =>
  inferInstanceAs (Decidable (_ ∧ ∀ r ∈ st.rows, r.id < st.next_id))

/-- A concrete event used in scenarios and witnesses. -/
def demoEvent : PhEvent := ⟨"e", "p", none⟩

/-- A serializer that succeeds on every event (the behavior of
`serde_json::to_string` on well-formed events). -/
def demoSer : PhEvent → Option String := fun e => some e.event

/-- A deserializer that fails exactly on the string "bad" (modelling a
corrupt stored row). -/
def demoDeser : String → Option PhEvent :=
  fun s => if s = "bad" then none else some ⟨s, "p", none⟩

/-- Scenario C of the spec: enqueue one event per call, `n` calls, with
strictly increasing timestamps (call `i` happens at millisecond `i`). -/
def scenarioC : Nat → Store
  | 0 => emptyStore
  | n + 1 => (queue_events demoSer (scenarioC n) [demoEvent] n).1

/-- The row produced by the `i`-th call of Scenario C. -/
def scRow (i : Nat) : Row := ⟨i + 1, "e", i, 0⟩

/-- Scenario B of the spec: one failed flush pass (valid key, transport
error) on a given store. -/
def flushFail (deser : String → Option PhEvent) (st : Store) : Store :=
  (flush_queue deser st "k" .err).store

/-- A concrete event on which `demoSerFail` fails. -/
def badEvent : PhEvent := ⟨"x", "p", none⟩

/-- A serializer that fails exactly on `badEvent`. -/
def demoSerFail : PhEvent → Option String :=
  fun e => if e.event = "x" then none else some e.event

/-- A store holding a single malformed (non-deserializable) row. -/
def malformedStore : Store := ⟨[⟨1, "bad", 0, 0⟩], 2⟩

/-- A store holding one malformed row and one good row. -/
def mixedStore : Store := ⟨[⟨1, "bad", 0, 0⟩, ⟨2, "good", 1, 0⟩], 3⟩

/-- A store whose malformed row sits at the retry ceiling boundary
(`retry_count = 4`), next to a fresh good row. -/
def edgeStore : Store := ⟨[⟨1, "bad", 0, 4⟩, ⟨2, "good", 1, 0⟩], 3⟩

/-! ## Basic lemmas about the embedding -/

theorem mkRows_map_id (js : List String) (i now_ms : Nat) :
    (mkRows js i now_ms).map (·.id) = List.range' i js.length := by
  induction js generalizing i with
  | nil => simp [mkRows]
  | cons j js ih => simp [mkRows, List.range'_succ, ih]

theorem mkRows_length (js : List String) (i now_ms : Nat) :
    (mkRows js i now_ms).length = js.length := by
  induction js generalizing i with
  | nil => simp [mkRows]
  | cons j js ih => simp [mkRows, ih]

theorem mkRows_created_at (js : List String) (i now_ms : Nat) :
    ∀ r ∈ mkRows js i now_ms, r.created_at = now_ms := by
  induction js generalizing i with
  | nil => simp [mkRows]
  | cons j js ih =>
    intro r hr
    rcases List.mem_cons.mp hr with h | h
    · rw [h]
    · exact ih (i + 1) r h

theorem mkRows_retry (js : List String) (i now_ms : Nat) :
    ∀ r ∈ mkRows js i now_ms, r.retry_count = 0 := by
  induction js generalizing i with
  | nil => simp [mkRows]
  | cons j js ih =>
    intro r hr
    rcases List.mem_cons.mp hr with h | h
    · rw [h]
    · exact ih (i + 1) r h

/-- Closed form of the insert loop of `queue_events`. -/
theorem foldl_insert (ser : PhEvent → Option String) (now_ms : Nat) :
    ∀ (events : List PhEvent) (st : Store) (c : Nat),
    events.foldl
      (fun acc e =>
        match ser e with
        | some json => (insertRow acc.1 json now_ms, acc.2 + 1)
        | none => acc)
      (st, c)
    = (⟨st.rows ++ mkRows (events.filterMap ser) st.next_id now_ms,
        st.next_id + (events.filterMap ser).length⟩,
       c + (events.filterMap ser).length) := by
  intro events
  induction events with
  | nil => intro st c; simp [List.filterMap, mkRows]
  | cons e es ih =>
    intro st c
    cases h : ser e with
    | none => simp [List.foldl_cons, h, ih, List.filterMap_cons]
    | some json =>
      simp only [List.foldl_cons, h]
      rw [ih]
      simp only [insertRow, List.filterMap_cons, h, List.length_cons, mkRows,
        Prod.mk.injEq, Store.mk.injEq, List.append_assoc, List.singleton_append]
      exact ⟨⟨by trivial, by omega⟩, by omega⟩

/-- Closed form of `queue_events`. -/
theorem queue_events_eq (ser : PhEvent → Option String) (st : Store)
    (events : List PhEvent) (now_ms : Nat) :
    queue_events ser st events now_ms =
      (⟨pruneOldest (st.rows ++ mkRows (events.filterMap ser) st.next_id now_ms)
          ((st.rows.length + (events.filterMap ser).length) - MAX_QUEUE_SIZE),
        st.next_id + (events.filterMap ser).length⟩,
       (events.filterMap ser).length) := by
  unfold queue_events
  rw [foldl_insert]
  simp [mkRows_length]

theorem length_filterMap_eq_filter (ser : PhEvent → Option String)
    (events : List PhEvent) :
    (events.filterMap ser).length
      = (events.filter (fun e => (ser e).isSome)).length := by
  induction events with
  | nil => simp
  | cons e es ih =>
    cases h : ser e with
    | none => simp [List.filterMap_cons, List.filter_cons, h, ih]
    | some v => simp [List.filterMap_cons, List.filter_cons, h, ih]

/-- Pruning zero rows is a no-op. -/
theorem pruneOldest_zero (rows : List Row) : pruneOldest rows 0 = rows := by
  simp [pruneOldest]

/-- Filtering out the ids of the left part of an append with distinct ids
keeps exactly the right part. -/
theorem filter_not_mem_ids_append (t d : List Row)
    (hn : ((t ++ d).map (·.id)).Nodup) :
    (t ++ d).filter (fun r => !(decide (r.id ∈ t.map (·.id)))) = d := by
  rw [List.map_append] at hn
  have hdisj := (List.nodup_append.mp hn).2.2
  rw [List.filter_append]
  have h1 : t.filter (fun r => !(decide (r.id ∈ t.map (·.id)))) = [] := by
    rw [List.filter_eq_nil_iff]
    intro r hr
    simp only [Bool.not_eq_true', decide_eq_false_iff_not, Decidable.not_not]
    exact List.mem_map_of_mem _ hr
  have h2 : d.filter (fun r => !(decide (r.id ∈ t.map (·.id)))) = d := by
    rw [List.filter_eq_self]
    intro r hr
    simp only [Bool.not_eq_true', decide_eq_false_iff_not]
    intro hmem
    exact hdisj hmem (List.mem_map_of_mem _ hr)
  rw [h1, h2, List.nil_append]

/-- Filtering out the ids of the `k`-prefix of a list with distinct ids
is `drop k`. -/
theorem filter_take_ids (l : List Row) (k : Nat)
    (hn : (l.map (·.id)).Nodup) :
    l.filter (fun r => !(decide (r.id ∈ (l.take k).map (·.id)))) = l.drop k := by
  have h := filter_not_mem_ids_append (l.take k) (l.drop k)
    (by rw [List.take_append_drop]; exact hn)
  rw [List.take_append_drop] at h
  exact h

/-- Pruning removes exactly `k` rows (when ids are distinct there are no
spurious matches for the doomed ids). -/
theorem length_pruneOldest (rows : List Row) (k : Nat)
    (hn : (rows.map (·.id)).Nodup) :
    (pruneOldest rows k).length = rows.length - k := by
  show (rows.filter
      (fun r =>
        !(decide (r.id ∈ ((rows.insertionSort keyLe).take k).map (·.id))))).length
    = rows.length - k
  have hperm : List.Perm (rows.insertionSort keyLe) rows :=
    List.perm_insertionSort keyLe rows
  have hn' : ((rows.insertionSort keyLe).map (·.id)).Nodup :=
    ((hperm.map (·.id)).nodup_iff).mpr hn
  have hfil := hperm.filter
    (fun r => !(decide (r.id ∈ ((rows.insertionSort keyLe).take k).map (·.id))))
  rw [← hfil.length_eq, filter_take_ids _ k hn', List.length_drop,
    hperm.length_eq]

/-- On a store already sorted in index-scan order, pruning drops the
`k`-prefix. -/
theorem pruneOldest_of_sorted (rows : List Row) (k : Nat)
    (hs : rows.Pairwise keyLe)
    (hn : (rows.map (·.id)).Nodup) :
    pruneOldest rows k = rows.drop k := by
  show rows.filter
      (fun r => !(decide (r.id ∈ ((rows.insertionSort keyLe).take k).map (·.id))))
    = rows.drop k
  rw [List.Sorted.insertionSort_eq hs]
  exact filter_take_ids rows k hn

/-- `queue_events` on a single serializable event. -/
theorem queue_events_single (ser : PhEvent → Option String) (e : PhEvent)
    (json : String) (hs : ser e = some json) (rows : List Row)
    (nid now_ms : Nat) :
    (queue_events ser ⟨rows, nid⟩ [e] now_ms).1
      = ⟨pruneOldest (rows ++ [⟨nid, json, now_ms, 0⟩])
          ((rows.length + 1) - MAX_QUEUE_SIZE), nid + 1⟩ := by
  rw [queue_events_eq]
  simp [hs, mkRows]

/-- Fresh inserts keep row ids distinct. -/
theorem insert_ids_nodup (st : Store) (js : List String) (now_ms : Nat)
    (hwf : WF st) :
    ((st.rows ++ mkRows js st.next_id now_ms).map (·.id)).Nodup := by
  rw [List.map_append, mkRows_map_id, List.nodup_append]
  refine ⟨hwf.1, List.nodup_range' _ _, ?_⟩
  intro a ha hb
  rw [List.mem_range'_1] at hb
  rcases List.mem_map.mp ha with ⟨r, hr, rfl⟩
  exact absurd (hwf.2 r hr) (by omega)

/-- `pruneOldest` only keeps rows of its input. -/
theorem pruneOldest_subset (rows : List Row) (k : Nat) :
    ∀ r ∈ pruneOldest rows k, r ∈ rows := by
  intro r hr
  exact List.mem_of_mem_filter hr

/-- Characterization of the success branch of `flush_queue`. -/
theorem flush_queue_success_eq (deser : String → Option PhEvent) (st : Store)
    (api_key : String) (hkey : api_key ≠ "")
    (hev : (select_eligible st FLUSH_BATCH_SIZE).filterMap
        (fun r => deser r.event_json) ≠ []) :
    flush_queue deser st api_key (.ok true) =
      ⟨⟨st.rows.filter (fun r =>
          !(decide (r.id ∈ (select_eligible st FLUSH_BATCH_SIZE).map (·.id)))),
        st.next_id⟩,
       some ((select_eligible st FLUSH_BATCH_SIZE).filterMap
          (fun r => deser r.event_json))⟩ := by
  have hne : select_eligible st FLUSH_BATCH_SIZE ≠ [] := by
    intro h
    rw [h] at hev
    exact hev rfl
  unfold flush_queue
  rw [if_neg (by simpa using hne), if_neg hkey, if_neg (by simpa using hev)]

/-- Characterization of the failure branch of `flush_queue`. -/
theorem flush_queue_failure_eq (deser : String → Option PhEvent) (st : Store)
    (api_key : String) (resp : RelayResponse) (hkey : api_key ≠ "")
    (hev : (select_eligible st FLUSH_BATCH_SIZE).filterMap
        (fun r => deser r.event_json) ≠ [])
    (hresp : resp ≠ .ok true) :
    flush_queue deser st api_key resp =
      ⟨⟨(st.rows.map (fun r =>
            if decide (r.id ∈ (select_eligible st FLUSH_BATCH_SIZE).map (·.id))
            then { r with retry_count := r.retry_count + 1 } else r)).filter
          (fun r =>
            !(decide (MAX_RETRY_COUNT ≤ r.retry_count)
              && decide (r.id ∈ (select_eligible st FLUSH_BATCH_SIZE).map (·.id)))),
        st.next_id⟩,
       some ((select_eligible st FLUSH_BATCH_SIZE).filterMap
          (fun r => deser r.event_json))⟩ := by
  have hne : select_eligible st FLUSH_BATCH_SIZE ≠ [] := by
    intro h
    rw [h] at hev
    exact hev rfl
  unfold flush_queue
  rw [if_neg (by simpa using hne), if_neg hkey, if_neg (by simpa using hev)]
  match resp, hresp with
  | .ok false, _ => rfl
  | .err, _ => rfl

/-- Every `flush_queue` call returns one of three results: untouched
store with no POST (one of the three early returns), the success shape, or
the failure shape. -/
theorem flush_queue_shape (deser : String → Option PhEvent) (st : Store)
    (api_key : String) (resp : RelayResponse) :
    flush_queue deser st api_key resp = ⟨st, none⟩
    ∨ flush_queue deser st api_key resp =
        ⟨⟨st.rows.filter (fun r =>
            !(decide (r.id ∈ (select_eligible st FLUSH_BATCH_SIZE).map (·.id)))),
          st.next_id⟩,
         some ((select_eligible st FLUSH_BATCH_SIZE).filterMap
            (fun r => deser r.event_json))⟩
    ∨ flush_queue deser st api_key resp =
        ⟨⟨(st.rows.map (fun r =>
              if decide (r.id ∈ (select_eligible st FLUSH_BATCH_SIZE).map (·.id))
              then { r with retry_count := r.retry_count + 1 } else r)).filter
            (fun r =>
              !(decide (MAX_RETRY_COUNT ≤ r.retry_count)
                && decide (r.id ∈ (select_eligible st FLUSH_BATCH_SIZE).map (·.id)))),
          st.next_id⟩,
         some ((select_eligible st FLUSH_BATCH_SIZE).filterMap
            (fun r => deser r.event_json))⟩ := by
  simp only [flush_queue]
  repeat' split
  all_goals
    first
      | exact Or.inl rfl
      | exact Or.inr (Or.inl rfl)
      | exact Or.inr (Or.inr rfl)

/-! ## Claim theorems -/

/-- C8: a flush pass invoked with no usable (empty) credential returns
without contacting the network and without writing to the store, for any
store contents; in particular `startup_flush` (which always passes an
empty key) never touches the store or the network, so `on_startup` with an
empty queue performs no storage writes and no network calls. -/
theorem flush_no_credential_noop (deser : String → Option PhEvent)
    (st : Store) (resp : RelayResponse) :
    flush_queue deser st "" resp = ⟨st, none⟩ ∧
    startup_flush deser st resp = ⟨st, none⟩ := by
  have h : flush_queue deser st "" resp = ⟨st, none⟩ := by
    simp [flush_queue]
  exact ⟨h, h⟩

/-- C4: `ph_send_batch` never fails outward for delivery-related reasons
(the model is a total function into `BatchResult`); on a 2xx response it
runs one flush pass and reports `{sent = events.length, queued = 0}`; a
non-2xx response and a transport error behave identically, enqueue the
batch, and report `{sent = 0, queued = count actually persisted}`. -/
theorem ph_send_batch_spec (ser : PhEvent → Option String)
    (deser : String → Option PhEvent) (st : Store) (events : List PhEvent)
    (api_key : String) (flushResp : RelayResponse) (now_ms : Nat) :
    (ph_send_batch ser deser st events api_key (.ok true) flushResp now_ms
      = ((flush_queue deser st api_key flushResp).store,
         ⟨events.length, 0⟩))
    ∧ (ph_send_batch ser deser st events api_key (.ok false) flushResp now_ms
      = ((queue_events ser st events now_ms).1,
         ⟨0, (queue_events ser st events now_ms).2⟩))
    ∧ (ph_send_batch ser deser st events api_key (.ok false) flushResp now_ms
      = ph_send_batch ser deser st events api_key .err flushResp now_ms) :=
  ⟨rfl, rfl, rfl⟩

/-- C9: every row inserted by one `queue_events` call carries the single
timestamp computed once before the insert loop, so any row of the
resulting store is either an old row or carries exactly `now_ms`. -/
theorem queue_events_single_timestamp (ser : PhEvent → Option String)
    (st : Store) (events : List PhEvent) (now_ms : Nat) :
    ∀ r ∈ (queue_events ser st events now_ms).1.rows,
      r ∈ st.rows ∨ r.created_at = now_ms := by
  intro r hr
  rw [queue_events_eq] at hr
  have hsub := pruneOldest_subset _ _ r hr
  rcases List.mem_append.mp hsub with h | h
  · exact Or.inl h
  · exact Or.inr (mkRows_created_at _ _ _ r h)

/-- Witness for C9 at a concrete input. -/
theorem queue_events_single_timestamp_witness :
    (⟨1, "e", 5, 0⟩ : Row) ∈ (queue_events demoSer emptyStore [demoEvent] 5).1.rows
    ∧ ((⟨1, "e", 5, 0⟩ : Row) ∈ emptyStore.rows
       ∨ (⟨1, "e", 5, 0⟩ : Row).created_at = 5) :=
  ⟨by decide,
   queue_events_single_timestamp demoSer emptyStore [demoEvent] 5
     ⟨1, "e", 5, 0⟩ (by decide)⟩

/-- Counterexample to C1 as stated: a flush pass with a usable credential
and a non-empty eligible selection consisting only of a malformed row
makes no delivery attempt at all and leaves the store — including the
malformed row's `retry_count` — completely untouched, because
`flush_queue` returns early when no selected row deserializes. -/
theorem flush_all_malformed_cex :
    select_eligible malformedStore FLUSH_BATCH_SIZE ≠ []
    ∧ ("k" : String) ≠ ""
    ∧ (flush_queue demoDeser malformedStore "k" .err).posted = none
    ∧ (flush_queue demoDeser malformedStore "k" .err).store
        = malformedStore := by
  refine ⟨by decide, by decide, by decide, by decide⟩

/-- C7: `queue_events` serializes each event independently: the returned
count is the number of events whose serialization succeeded; when the cap
is not hit, exactly those events' rows are appended to the store; and on a
serializer that fails for one event of a two-event batch, the count (1) is
strictly less than the input length (2) while the other event is still
persisted. -/
theorem queue_events_serialization_independent :
    (∀ (ser : PhEvent → Option String) (st : Store) (events : List PhEvent)
       (now_ms : Nat),
       (queue_events ser st events now_ms).2
         = (events.filter (fun e => (ser e).isSome)).length)
    ∧ (∀ (ser : PhEvent → Option String) (st : Store) (events : List PhEvent)
         (now_ms : Nat),
         st.rows.length + (events.filterMap ser).length ≤ MAX_QUEUE_SIZE →
         (queue_events ser st events now_ms).1.rows
           = st.rows ++ mkRows (events.filterMap ser) st.next_id now_ms)
    ∧ (queue_events demoSerFail emptyStore [demoEvent, badEvent] 0).2 = 1
    ∧ (queue_events demoSerFail emptyStore [demoEvent, badEvent] 0).1.rows
        = [⟨1, "e", 0, 0⟩] := by
  refine ⟨?_, ?_, by decide, by decide⟩
  · intro ser st events now_ms
    rw [queue_events_eq]
    exact length_filterMap_eq_filter ser events
  · intro ser st events now_ms hle
    rw [queue_events_eq]
    simp only
    rw [Nat.sub_eq_zero_of_le hle, pruneOldest_zero]

/-- Witness for C7 (discharging the no-eviction hypothesis at a concrete
input). -/
theorem queue_events_serialization_independent_witness :
    (emptyStore.rows.length + ([demoEvent].filterMap demoSer).length
      ≤ MAX_QUEUE_SIZE)
    ∧ (queue_events demoSer emptyStore [demoEvent] 7).1.rows
        = emptyStore.rows
          ++ mkRows ([demoEvent].filterMap demoSer) emptyStore.next_id 7 :=
  ⟨by decide,
   queue_events_serialization_independent.2.1 demoSer emptyStore [demoEvent] 7
     (by decide)⟩

/-- C3: `retry_count` stays below the ceiling: both `flush_queue` (which
purges, in the same pass, every selected row whose incremented count
reaches `MAX_RETRY_COUNT`) and `queue_events` (which inserts fresh rows at
0) preserve the invariant that every live row has `retry_count < 5`; and
in Scenario B a single queued event survives 4 consecutive failed flush
passes but is purged by the 5th. -/
theorem retry_count_bounded :
    (∀ (deser : String → Option PhEvent) (st : Store) (api_key : String)
       (resp : RelayResponse),
       RetryInv st → RetryInv (flush_queue deser st api_key resp).store)
    ∧ (∀ (ser : PhEvent → Option String) (st : Store) (events : List PhEvent)
         (now_ms : Nat),
         RetryInv st → RetryInv (queue_events ser st events now_ms).1)
    ∧ (flushFail demoDeser (flushFail demoDeser (flushFail demoDeser
        (flushFail demoDeser
          (queue_events demoSer emptyStore [demoEvent] 0).1)))).rows
        = [⟨1, "e", 0, 4⟩]
    ∧ (flushFail demoDeser (flushFail demoDeser (flushFail demoDeser
        (flushFail demoDeser (flushFail demoDeser
          (queue_events demoSer emptyStore [demoEvent] 0).1))))).rows
        = [] := by
  refine ⟨?_, ?_, by decide, by decide⟩
  · intro deser st api_key resp hinv
    rcases flush_queue_shape deser st api_key resp with h | h | h <;> rw [h]
    · exact hinv
    · intro r hr
      exact hinv r (List.mem_of_mem_filter hr)
    · intro r hr
      have hr' := List.mem_of_mem_filter hr
      have hpred := List.of_mem_filter hr
      rcases List.mem_map.mp hr' with ⟨r0, hr0, rfl⟩
      have h0 := hinv r0 hr0
      by_cases hid : r0.id ∈ (select_eligible st FLUSH_BATCH_SIZE).map (·.id)
      · rw [if_pos (by exact decide_eq_true hid)] at hpred ⊢
        simp only [Bool.not_eq_true', Bool.and_eq_false_iff,
          decide_eq_false_iff_not] at hpred
        unfold RetryInv MAX_RETRY_COUNT at *
        rcases hpred with h' | h'
        · simpa using Nat.lt_of_not_le h'
        · exact absurd hid h'
      · rw [if_neg (by simpa using hid)]
        exact h0
  · intro ser st events now_ms hinv r hr
    rw [queue_events_eq] at hr
    have hsub := pruneOldest_subset _ _ r hr
    rcases List.mem_append.mp hsub with h | h
    · exact hinv r h
    · rw [mkRows_retry _ _ _ r h]
      decide

/-- Witness for C3 (discharging the invariant hypothesis at a concrete
input). -/
theorem retry_count_bounded_witness :
    RetryInv mixedStore
    ∧ RetryInv (flush_queue demoDeser mixedStore "k" .err).store :=
  ⟨by decide, retry_count_bounded.1 demoDeser mixedStore "k" .err (by decide)⟩

/-- C6: `select_eligible limit` returns at most `limit` rows, every
returned row has `retry_count < MAX_RETRY_COUNT`, and the rows come back
oldest-first (non-decreasing `created_at`).  The operation is a pure read:
in the model it is a function of the store that returns a row list and
touches nothing. -/
theorem select_eligible_spec (st : Store) (limit : Nat) :
    (select_eligible st limit).length ≤ limit
    ∧ (∀ r ∈ select_eligible st limit, r.retry_count < MAX_RETRY_COUNT)
    ∧ (select_eligible st limit).Pairwise
        (fun a b => a.created_at ≤ b.created_at) := by
  refine ⟨List.length_take_le _ _, ?_, ?_⟩
  · intro r hr
    have h1 := List.mem_of_mem_take hr
    rw [List.mem_insertionSort] at h1
    have h2 := List.of_mem_filter h1
    simpa using h2
  · have hs : ((st.rows.filter
        (fun r => decide (r.retry_count < MAX_RETRY_COUNT))).insertionSort
          keyLe).Pairwise keyLe :=
      List.sorted_insertionSort keyLe _
    have hs' := hs.sublist (List.take_sublist limit _)
    exact hs'.imp (fun hab => by unfold keyLe at hab; omega)

/-- Witness for C6 at a concrete input. -/
theorem select_eligible_spec_witness :
    (select_eligible mixedStore 50).length ≤ 50
    ∧ (∀ r ∈ select_eligible mixedStore 50, r.retry_count < MAX_RETRY_COUNT)
    ∧ (select_eligible mixedStore 50).Pairwise
        (fun a b => a.created_at ≤ b.created_at) :=
  select_eligible_spec mixedStore 50

/-- C5: a flush pass that reaches delivery and receives a 2xx outcome
deletes from the store exactly the row ids it originally selected — every
non-selected row survives, every surviving row is an original non-selected
row — regardless of how many of the selected rows were deserializable
(only one deserializable row is required for delivery to happen at all). -/
theorem flush_success_deletes_selected (deser : String → Option PhEvent)
    (st : Store) (api_key : String) (hkey : api_key ≠ "")
    (hev : (select_eligible st FLUSH_BATCH_SIZE).filterMap
        (fun r => deser r.event_json) ≠ []) :
    (∀ r ∈ st.rows,
       r.id ∉ (select_eligible st FLUSH_BATCH_SIZE).map (·.id) →
       r ∈ (flush_queue deser st api_key (.ok true)).store.rows)
    ∧ (∀ r ∈ (flush_queue deser st api_key (.ok true)).store.rows,
        r ∈ st.rows
          ∧ r.id ∉ (select_eligible st FLUSH_BATCH_SIZE).map (·.id))
    ∧ (flush_queue deser st api_key (.ok true)).posted
        = some ((select_eligible st FLUSH_BATCH_SIZE).filterMap
            (fun r => deser r.event_json)) := by
  rw [flush_queue_success_eq deser st api_key hkey hev]
  refine ⟨?_, ?_, rfl⟩
  · intro r hr hid
    exact List.mem_filter.mpr ⟨hr, by simpa using hid⟩
  · intro r hr
    exact ⟨(List.mem_filter.mp hr).1,
      by simpa using (List.mem_filter.mp hr).2⟩

/-- Witness for C5: a two-row store (one malformed row) flushed with a
usable key and a 2xx outcome. -/
theorem flush_success_deletes_selected_witness :
    (("k" : String) ≠ ""
      ∧ (select_eligible mixedStore FLUSH_BATCH_SIZE).filterMap
          (fun r => demoDeser r.event_json) ≠ [])
    ∧ ((∀ r ∈ mixedStore.rows,
          r.id ∉ (select_eligible mixedStore FLUSH_BATCH_SIZE).map (·.id) →
          r ∈ (flush_queue demoDeser mixedStore "k" (.ok true)).store.rows)
       ∧ (∀ r ∈ (flush_queue demoDeser mixedStore "k" (.ok true)).store.rows,
           r ∈ mixedStore.rows
             ∧ r.id ∉ (select_eligible mixedStore FLUSH_BATCH_SIZE).map (·.id))
       ∧ (flush_queue demoDeser mixedStore "k" (.ok true)).posted
           = some ((select_eligible mixedStore FLUSH_BATCH_SIZE).filterMap
               (fun r => demoDeser r.event_json))) :=
  ⟨⟨by decide, by decide⟩,
   flush_success_deletes_selected demoDeser mixedStore "k" (by decide)
     (by decide)⟩

/-- C1 (amended): on a flush pass with a usable credential whose eligible
selection contains at least one deserializable row, delivery is attempted
for the deserialized events, and on a failure outcome the resulting store
is exactly the original rows with `retry_count` incremented for every
selected row id — including ids whose `event_json` fails to deserialize —
followed by the same-pass purge of selected rows at the ceiling; hence for
every selected row, its incremented copy survives the pass precisely when
the incremented count is still below `MAX_RETRY_COUNT`.  If no selected
row deserializes, the pass returns without attempting delivery and
without touching the store (see the counterexample), so malformed rows do
not always age toward eviction. -/
theorem flush_failure_increments_all_selected
    (deser : String → Option PhEvent) (st : Store) (api_key : String)
    (resp : RelayResponse) (hkey : api_key ≠ "")
    (hev : (select_eligible st FLUSH_BATCH_SIZE).filterMap
        (fun r => deser r.event_json) ≠ [])
    (hresp : resp ≠ RelayResponse.ok true) :
    (flush_queue deser st api_key resp).posted
      = some ((select_eligible st FLUSH_BATCH_SIZE).filterMap
          (fun r => deser r.event_json))
    ∧ (flush_queue deser st api_key resp).store.rows
        = (st.rows.map (fun r =>
            if decide (r.id ∈ (select_eligible st FLUSH_BATCH_SIZE).map (·.id))
            then { r with retry_count := r.retry_count + 1 } else r)).filter
            (fun r =>
              !(decide (MAX_RETRY_COUNT ≤ r.retry_count)
                && decide (r.id ∈ (select_eligible st FLUSH_BATCH_SIZE).map
                    (·.id))))
    ∧ (∀ r ∈ st.rows,
         r.id ∈ (select_eligible st FLUSH_BATCH_SIZE).map (·.id) →
         ({ r with retry_count := r.retry_count + 1 }
             ∈ (flush_queue deser st api_key resp).store.rows
           ↔ r.retry_count + 1 < MAX_RETRY_COUNT)) := by
  rw [flush_queue_failure_eq deser st api_key resp hkey hev hresp]
  refine ⟨rfl, rfl, ?_⟩
  intro r hr hid
  constructor
  · intro hmem
    have hpred := List.of_mem_filter hmem
    simp only [Bool.not_eq_true', Bool.and_eq_false_iff,
      decide_eq_false_iff_not] at hpred
    rcases hpred with h | h
    · omega
    · exact absurd hid h
  · intro hlt
    apply List.mem_filter.mpr
    have hnle : ¬(MAX_RETRY_COUNT ≤ r.retry_count + 1) := by omega
    constructor
    · exact List.mem_map.mpr ⟨r, hr, by rw [if_pos (decide_eq_true hid)]⟩
    · simp [hnle]

/-- Witness for the amended C1: in `edgeStore` both rows are selected; the
malformed row (id 1) sits at `retry_count = 4`, so after the transport
failure its incremented copy is gone (purged at the ceiling in the same
pass) while the good row survives incremented — both iff instances are
discharged at the boundary. -/
theorem flush_failure_increments_all_selected_witness :
    (("k" : String) ≠ ""
      ∧ (select_eligible edgeStore FLUSH_BATCH_SIZE).filterMap
          (fun r => demoDeser r.event_json) ≠ []
      ∧ RelayResponse.err ≠ RelayResponse.ok true)
    ∧ ((flush_queue demoDeser edgeStore "k" .err).posted
        = some ((select_eligible edgeStore FLUSH_BATCH_SIZE).filterMap
            (fun r => demoDeser r.event_json))
       ∧ (flush_queue demoDeser edgeStore "k" .err).store.rows
           = (edgeStore.rows.map (fun r =>
               if decide (r.id ∈ (select_eligible edgeStore
                   FLUSH_BATCH_SIZE).map (·.id))
               then { r with retry_count := r.retry_count + 1 } else r)).filter
               (fun r =>
                 !(decide (MAX_RETRY_COUNT ≤ r.retry_count)
                   && decide (r.id ∈ (select_eligible edgeStore
                       FLUSH_BATCH_SIZE).map (·.id))))
       ∧ (∀ r ∈ edgeStore.rows,
            r.id ∈ (select_eligible edgeStore FLUSH_BATCH_SIZE).map (·.id) →
            ({ r with retry_count := r.retry_count + 1 }
                ∈ (flush_queue demoDeser edgeStore "k" .err).store.rows
              ↔ r.retry_count + 1 < MAX_RETRY_COUNT))) :=
  ⟨⟨by decide, by decide, by decide⟩,
   flush_failure_increments_all_selected demoDeser edgeStore "k" .err
     (by decide) (by decide) (by decide)⟩

set_option maxRecDepth 40000 in
/-- C10: on the failure path `ph_send_batch` reports as `queued` the
number of rows inserted before the size-cap eviction runs (the count of
serializable events), and for a single batch of 501 serializable events
submitted to an empty store the reported count (501) strictly exceeds the
500 rows of that batch still present when the call returns. -/
theorem queued_count_before_eviction :
    (∀ (ser : PhEvent → Option String) (deser : String → Option PhEvent)
       (st : Store) (events : List PhEvent) (api_key : String)
       (flushResp : RelayResponse) (now_ms : Nat),
       (ph_send_batch ser deser st events api_key .err flushResp now_ms).2.queued
         = (events.filter (fun e => (ser e).isSome)).length)
    ∧ (ph_send_batch demoSer demoDeser emptyStore (List.replicate 501 demoEvent)
        "k" .err .err 0).2.queued = 501
    ∧ (ph_send_batch demoSer demoDeser emptyStore (List.replicate 501 demoEvent)
        "k" .err .err 0).1.rows.length = 500
    ∧ (ph_send_batch demoSer demoDeser emptyStore (List.replicate 501 demoEvent)
        "k" .err .err 0).1.rows.length
      < (ph_send_batch demoSer demoDeser emptyStore (List.replicate 501 demoEvent)
        "k" .err .err 0).2.queued := by
  refine ⟨?_, by decide, by decide, by decide⟩
  intro ser deser st events api_key flushResp now_ms
  show (queue_events ser st events now_ms).2 = _
  rw [queue_events_eq]
  exact length_filterMap_eq_filter ser events

/-- Closed form of Scenario C: after `n` single-event calls at strictly
increasing timestamps the store holds the most recent `min n 500` rows,
in order. -/
theorem scenarioC_closed (n : Nat) :
    scenarioC n
      = ⟨((List.range n).drop (n - MAX_QUEUE_SIZE)).map scRow, n + 1⟩ := by
  induction n with
  | zero => rfl
  | succ n ih =>
    show (queue_events demoSer (scenarioC n) [demoEvent] n).1 = _
    rw [ih, queue_events_single demoSer demoEvent "e" rfl]
    have hL : ((List.range n).drop (n - MAX_QUEUE_SIZE)).map scRow
          ++ [(⟨n + 1, "e", n, 0⟩ : Row)]
        = ((List.range (n + 1)).drop (n - MAX_QUEUE_SIZE)).map scRow := by
      rw [List.range_succ,
        List.drop_append_of_le_length
          (by simpa using Nat.sub_le n MAX_QUEUE_SIZE),
        List.map_append]
      rfl
    rw [hL]
    have hlt : ((List.range (n + 1)).drop (n - MAX_QUEUE_SIZE)).Pairwise
        (· < ·) :=
      (List.pairwise_lt_range (n + 1)).sublist (List.drop_sublist _ _)
    have hsorted : (((List.range (n + 1)).drop
        (n - MAX_QUEUE_SIZE)).map scRow).Pairwise keyLe := by
      rw [List.pairwise_map]
      exact hlt.imp (fun h => Or.inl h)
    have hnodup : ((((List.range (n + 1)).drop
        (n - MAX_QUEUE_SIZE)).map scRow).map (·.id)).Nodup := by
      rw [List.map_map]
      apply List.Nodup.map
      · intro a b hab
        simp only [Function.comp_apply, scRow] at hab
        omega
      · exact (List.nodup_range (n + 1)).sublist (List.drop_sublist _ _)
    rw [pruneOldest_of_sorted _ _ hsorted hnodup, ← List.map_drop,
      List.drop_drop]
    have hidx : (n - MAX_QUEUE_SIZE)
          + ((((List.range n).drop (n - MAX_QUEUE_SIZE)).map scRow).length
             + 1 - MAX_QUEUE_SIZE)
        = (n + 1) - MAX_QUEUE_SIZE := by
      simp only [List.length_map, List.length_drop, List.length_range]
      omega
    rw [hidx]

set_option maxRecDepth 4000 in
/-- C2: after any `queue_events` call the store holds at most
`MAX_QUEUE_SIZE` (500) rows — the insert batch's eviction brings the store
back down to the cap in the same operation; and in Scenario C, enqueueing
600 events one at a time leaves exactly 500 rows, namely the 500
most-recently-created ones (timestamps 100..599). -/
theorem queue_size_capped :
    (∀ (ser : PhEvent → Option String) (st : Store) (events : List PhEvent)
       (now_ms : Nat), WF st →
       (queue_events ser st events now_ms).1.rows.length ≤ MAX_QUEUE_SIZE)
    ∧ (scenarioC 600).rows.length = MAX_QUEUE_SIZE
    ∧ (scenarioC 600).rows.map (·.created_at) = List.range' 100 500 := by
  refine ⟨?_, ?_, ?_⟩
  · intro ser st events now_ms hwf
    rw [queue_events_eq]
    simp only
    rw [length_pruneOldest _ _
      (insert_ids_nodup st (events.filterMap ser) now_ms hwf)]
    simp only [List.length_append, mkRows_length]
    omega
  · rw [scenarioC_closed]
    norm_num [List.length_map, List.length_drop, List.length_range,
      MAX_QUEUE_SIZE]
  · rw [scenarioC_closed]
    have hcomp : ((·.created_at) ∘ scRow) = fun i : Nat => i := rfl
    have h600 : (600 : Nat) - MAX_QUEUE_SIZE = 100 := by
      norm_num [MAX_QUEUE_SIZE]
    have hsplit : List.range' 0 600
        = List.range' 0 100 ++ List.range' 100 500 := by
      rw [List.range'_append_1]
    rw [List.map_map, hcomp, h600, List.range_eq_range', hsplit,
      List.drop_left' (by simp), List.map_id']

/-- Witness for C2 (discharging the well-formedness hypothesis at a
concrete input). -/
theorem queue_size_capped_witness :
    WF mixedStore
    ∧ (queue_events demoSer mixedStore [demoEvent] 9).1.rows.length
        ≤ MAX_QUEUE_SIZE :=
  ⟨by decide, queue_size_capped.1 demoSer mixedStore [demoEvent] 9 (by decide)⟩

end Ticketflow
